import Mathlib

/-!
Shallow embedding of `speechbrain/nnet/CNN.py` (class `Conv`): the kernel
dispatch check, the lazy parameter initialization, the "same"-length padding
arithmetic, the shape semantics of `forward`, and the real-valued mel-scale
and sinc-filter synthesis.  Integer arithmetic from the Python source is
modelled on ℕ/ℤ (Python `//` is `Int.fdiv`); the floating-point formulas are
modelled over ℝ, as exact real arithmetic.
-/

namespace CNN

/-- Python exception kinds raised by the module.  Note that several `raise
ValueError("..." + len(x))` sites in the source concatenate `str + int`,
which in Python raises a `TypeError` before the `ValueError` is constructed. -/
inductive PyErr : Type where
  | valueError : String → PyErr
  | typeError : String → PyErr
  | indexError : String → PyErr
  | runtimeError : String → PyErr
deriving DecidableEq, Repr

/-- `kernel_size` as passed to the constructor: a plain int or a tuple. -/
inductive KernelArg : Type where
  | int : ℕ → KernelArg
  | tuple : List ℕ → KernelArg
deriving DecidableEq, Repr

/-- `isinstance(kernel_size, int)` normalization at the top of
`_kernel_check`: an int `k` becomes the tuple `(k,)`. -/
def normalizeKernel : KernelArg → List ℕ
  | .int k => [k]
  | .tuple l => l

/-- `Conv._kernel_check` (lines 123-151): raise `ValueError` at the first
even kernel element; set `conv1d` iff the kernel tuple has length 1 and
`conv2d` iff it has length 2; with `sinc_conv` and a 2-element kernel the
source evaluates `"sinc_conv expects 1d kernels. Got " + len(...)`, a
`str + int` concatenation, so a `TypeError` is raised there.
Returns `(conv1d, conv2d)` on success. -/
def kernelCheck (sinc_conv : Bool) (kernel_size : List ℕ) :
    Except PyErr (Bool × Bool) :=
  if kernel_size.any (fun s => s % 2 == 0) then
    .error (.valueError "The field kernel size must be an odd number.")
  else
    let conv1d := kernel_size.length == 1
    let conv2d := kernel_size.length == 2
    if sinc_conv && conv2d then
      .error (.typeError "can only concatenate str (not int) to str")
    else
      .ok (conv1d, conv2d)

/-- Mutable state of a `Conv` module relevant to shape semantics: the
constructor-stored configuration (lines 105-118) plus the flags and the
inferred channel count set by `_kernel_check` and the `_init_*` methods.
`in_channels` does not exist before initialization; it is modelled with
initial value `0` (never produced by the init methods, whose inputs have
positive dimensions in torch). -/
structure Conv : Type where
  out_channels : ℕ
  kernel_size : List ℕ
  stride : List ℕ
  dilation : List ℕ
  padding : Bool
  groups : ℕ
  bias : Bool
  padding_mode : String
  sinc_conv : Bool
  sample_rate : ℚ
  min_low_hz : ℚ
  min_band_hz : ℚ
  reshape_conv1d : Bool
  unsqueeze : Bool
  conv1d : Bool
  conv2d : Bool
  in_channels : ℕ
deriving DecidableEq, Repr

/-- `Conv.__init__` (lines 89-121): store the configuration, set
`reshape_conv1d = unsqueeze = False`, and run `_kernel_check`. -/
def mkConv (out_channels : ℕ) (kernel_size : KernelArg)
    (stride dilation : List ℕ) (padding : Bool) (groups : ℕ) (bias : Bool)
    (padding_mode : String) (sinc_conv : Bool)
    (sample_rate min_low_hz min_band_hz : ℚ) : Except PyErr Conv := do
  let ks := normalizeKernel kernel_size
  let (c1, c2) ← kernelCheck sinc_conv ks
  .ok { out_channels := out_channels, kernel_size := ks, stride := stride,
        dilation := dilation, padding := padding, groups := groups,
        bias := bias, padding_mode := padding_mode, sinc_conv := sinc_conv,
        sample_rate := sample_rate, min_low_hz := min_low_hz,
        min_band_hz := min_band_hz, reshape_conv1d := false,
        unsqueeze := false, conv1d := c1, conv2d := c2, in_channels := 0 }

/-- `mkConv` with the constructor's default arguments
(`stride=(1,1)`, `dilation=(1,1)`, `padding=True`, `groups=1`, `bias=True`,
`padding_mode="reflect"`, `sample_rate=16000`, `min_low_hz=min_band_hz=50`). -/
def mkConvDefault (out_channels : ℕ) (kernel_size : KernelArg)
    (sinc_conv : Bool) : Except PyErr Conv :=
  mkConv out_channels kernel_size [1, 1] [1, 1] true 1 true "reflect"
    sinc_conv 16000 50 50

/-- `Conv._get_padding_elem` (lines 430-451).  All quantities are Python
ints; Python `//` is `Int.fdiv`.  In the `stride == 1` branch the source
computes `L_out` through float division by 1 and `int()`, which is exact on
these integer values, so `L_out = L_in - dilation * (kernel_size - 1)`.
In the `stride > 1` branch `n_steps`/`L_out` are computed but do not affect
the returned padding. -/
def getPaddingElem (Lin stride kernel_size dilation : ℤ) : List ℤ :=
  if stride > 1 then
    [kernel_size.fdiv 2, kernel_size.fdiv 2]
  else
    let Lout := Lin - dilation * (kernel_size - 1)
    [(Lin - Lout).fdiv 2, (Lin - Lout).fdiv 2]

/-- Output length of a torch `conv1d`/`conv2d` spatial axis with input
length `L`, kernel `k`, dilation `d`, stride `s` and zero internal padding:
`floor((L - d*(k-1) - 1) / s) + 1` (defined when `L ≥ d*(k-1) + 1`). -/
def convOutLen (L k d s : ℕ) : ℕ := (L - d * (k - 1) - 1) / s + 1

/-- The per-side padding amount `_manage_padding` applies to an axis: the
first element of `_get_padding_elem` (whose two elements are equal). -/
def padAmount (L k d s : ℕ) : ℕ :=
  ((getPaddingElem (L : ℤ) (s : ℤ) (k : ℤ) (d : ℤ)).headI).toNat

/-- One axis of `forward` with `padding=True`: the axis length after
`_manage_padding` adds the two padding amounts from `_get_padding_elem`
and the convolution consumes the padded axis. -/
def paddedConvLen (L k d s : ℕ) : ℕ :=
  convOutLen (L + 2 * padAmount L k d s) k d s

/-- `Conv._init_conv1d` (lines 173-213) on the input's shape: rank 1 and
rank > 4 raise (`"..." + len(...)` is `str + int`, a `TypeError`); rank 2
sets `unsqueeze` and `in_channels = 1`; rank 3 sets
`in_channels = shape[2]`; rank 4 sets `reshape_conv1d` and
`in_channels = shape[2] * shape[3]`.  The trailing `nn.Conv1d` construction
raises a `ValueError` when `groups` does not divide both channel counts. -/
def init_conv1d (m : Conv) (shape : List ℕ) : Except PyErr Conv :=
  if shape.length == 1 then
    .error (.typeError "can only concatenate str (not int) to str")
  else
    let m := if shape.length == 2 then
      { m with unsqueeze := true, in_channels := 1 } else m
    let m := if shape.length == 3 then
      { m with in_channels := shape[2]! } else m
    let m := if shape.length == 4 then
      { m with reshape_conv1d := true,
               in_channels := shape[2]! * shape[3]! } else m
    if shape.length > 4 then
      .error (.typeError "can only concatenate str (not int) to str")
    else if m.groups == 0 || m.in_channels % m.groups != 0
        || m.out_channels % m.groups != 0 then
      .error (.valueError "in_channels must be divisible by groups")
    else
      .ok m

/-- `Conv._init_conv2d` (lines 215-254) on the input's shape: rank ≤ 2 and
rank > 4 raise a `TypeError` (`str + int`); rank 3 sets `unsqueeze` and
`in_channels = 1`; rank 4 sets `in_channels = shape[3]`; then
`kernel_size`, `stride` and `dilation` are overwritten with their reversed
pairs and `nn.Conv2d` is constructed (`ValueError` on a bad `groups`). -/
def init_conv2d (m : Conv) (shape : List ℕ) : Except PyErr Conv :=
  if shape.length ≤ 2 then
    .error (.typeError "can only concatenate str (not int) to str")
  else
    let m := if shape.length == 3 then
      { m with unsqueeze := true, in_channels := 1 } else m
    let m := if shape.length == 4 then
      { m with in_channels := shape[3]! } else m
    if shape.length > 4 then
      .error (.typeError "can only concatenate str (not int) to str")
    else
      let m := { m with
        kernel_size := [m.kernel_size[1]!, m.kernel_size[0]!],
        stride := [m.stride[1]!, m.stride[0]!],
        dilation := [m.dilation[1]!, m.dilation[0]!] }
      if m.groups == 0 || m.in_channels % m.groups != 0
          || m.out_channels % m.groups != 0 then
        .error (.valueError "in_channels must be divisible by groups")
      else
        .ok m

/-- `Conv._init_sinc_conv` (lines 256-300) at the shape level: it first
runs `_init_conv1d`; the remaining statements only build the real-valued
`low_hz_`, `band_hz_`, `window_` and `n_` buffers, modelled separately
below over ℝ, and change no shape-relevant state. -/
def init_sinc_conv (m : Conv) (shape : List ℕ) : Except PyErr Conv :=
  init_conv1d m shape

/-- `Conv.init_params` (lines 153-171): dispatch to the mode's
initializer. -/
def init_params (m : Conv) (shape : List ℕ) : Except PyErr Conv := do
  let m1 ← if m.conv1d then
      (if m.sinc_conv then init_sinc_conv m shape else init_conv1d m shape)
    else .ok m
  if m1.conv2d then init_conv2d m1 shape else .ok m1

/-- `x.transpose(1, -1)` on a shape: swap dimension 1 with the last
dimension.  Rank 0 or 1 raises an `IndexError` (dimension out of range). -/
def transposeShape : List ℕ → Except PyErr (List ℕ)
  | a :: b :: t =>
    match t with
    | [] => .ok [a, b]
    | _ => .ok (a :: t.getLast! :: (t.dropLast ++ [b]))
  | _ => .error (.indexError "Dimension out of range")

/-- `x.unsqueeze(1)` on a shape: insert a dimension of size 1 at index 1. -/
def unsqueezeAt1 : List ℕ → Except PyErr (List ℕ)
  | a :: rest => .ok (a :: 1 :: rest)
  | [] => .error (.indexError "Dimension out of range")

/-- `wx.squeeze(1)` on a shape: remove dimension 1 only when its size
is 1. -/
def squeezeAt1 : List ℕ → List ℕ
  | a :: b :: rest => if b == 1 then a :: rest else a :: b :: rest
  | x => x

/-- `Conv._manage_padding` (lines 352-381) on a shape.  The time padding is
computed from the last dimension `L_in`; in 2D mode the frequency padding
is also computed from `L_in` (the source passes `L_in`, not the frequency
length, to `_get_padding_elem`) and applied to the second-to-last
dimension.  `F.pad` in `"reflect"` mode (the default `padding_mode`)
requires each padding amount to be smaller than the dimension it pads. -/
def manage_padding (m : Conv) (x : List ℕ) : Except PyErr (List ℕ) :=
  let Lin := x.getLast!
  let pT := ((getPaddingElem (Lin : ℤ) (m.stride.getLast! : ℤ)
      (m.kernel_size.getLast! : ℤ) (m.dilation.getLast! : ℤ)).headI).toNat
  if m.conv2d then
    let Fr := x.dropLast.getLast!
    let pF := ((getPaddingElem (Lin : ℤ) (m.stride.dropLast.getLast! : ℤ)
        (m.kernel_size.dropLast.getLast! : ℤ)
        (m.dilation.dropLast.getLast! : ℤ)).headI).toNat
    if m.padding_mode == "reflect" && (Lin ≤ pT || Fr ≤ pF) then
      .error (.runtimeError
        "Padding size should be less than the corresponding input dimension")
    else
      .ok (x.dropLast.dropLast ++ [Fr + 2 * pF, Lin + 2 * pT])
  else
    if m.padding_mode == "reflect" && Lin ≤ pT then
      .error (.runtimeError
        "Padding size should be less than the corresponding input dimension")
    else
      .ok (x.dropLast ++ [Lin + 2 * pT])

/-- Shape semantics of torch `conv1d` (both `nn.Conv1d` and `F.conv1d`)
with zero padding: a 3-D input `[b, c, l]` whose channel count matches and
whose length reaches the dilated kernel maps to
`[b, out_ch, convOutLen l k d s]`. -/
def conv1dApply (in_ch out_ch k d s : ℕ) (x : List ℕ) :
    Except PyErr (List ℕ) :=
  match x with
  | [b, c, l] =>
    if s == 0 || d == 0 then
      .error (.runtimeError "stride and dilation must be greater than zero")
    else if c ≠ in_ch then
      .error (.runtimeError "expected input channels to match")
    else if l < d * (k - 1) + 1 then
      .error (.runtimeError
        "Kernel size can't be greater than actual input size")
    else
      .ok [b, out_ch, convOutLen l k d s]
  | _ => .error (.runtimeError "Expected 3-dimensional input")

/-- Shape semantics of torch `conv2d` with zero padding, kernel/stride/
dilation pairs taken from the (already reversed) configuration lists. -/
def conv2dApply (in_ch out_ch : ℕ) (ks ds ss : List ℕ) (x : List ℕ) :
    Except PyErr (List ℕ) :=
  match ks, ds, ss, x with
  | [k0, k1], [d0, d1], [s0, s1], [b, c, h, w] =>
    if s0 == 0 || s1 == 0 || d0 == 0 || d1 == 0 then
      .error (.runtimeError "stride and dilation must be greater than zero")
    else if c ≠ in_ch then
      .error (.runtimeError "expected input channels to match")
    else if h < d0 * (k0 - 1) + 1 || w < d1 * (k1 - 1) + 1 then
      .error (.runtimeError
        "Kernel size can't be greater than actual input size")
    else
      .ok [b, out_ch, convOutLen h k0 d0 s0, convOutLen w k1 d1 s1]
  | _, _, _, _ => .error (.runtimeError "Expected 4-dimensional input")

/-- `Conv.forward` (lines 302-350) at the shape level, after
initialization: transpose(1, -1); in `reshape_conv1d` mode merge the two
middle dimensions (the restore at line 346 reads `wx.shape[3]` and so
raises an `IndexError` when `wx` is 3-D, which it always is after
`conv1d`); in `unsqueeze` mode insert a singleton dimension; optionally
pad; run the selected convolution (`F.conv1d` with the sinc filter bank of
shape `(out_channels, 1, kernel_size[0])` and `groups=1` needs a 1-channel
input); undo squeeze/reshape; transpose back. -/
def forward (m : Conv) (x0 : List ℕ) : Except PyErr (List ℕ) := do
  let x ← transposeShape x0
  let (orShape0, x) ←
    if m.reshape_conv1d then
      match x with
      | [a, b, c, d] => .ok (a, ([a, b * c, d] : List ℕ))
      | _ => .error (.indexError "tuple index out of range")
    else .ok (0, x)
  let x ← if m.unsqueeze then unsqueezeAt1 x else .ok x
  let x ← if m.padding then manage_padding m x else .ok x
  let wx ←
    if m.sinc_conv then
      conv1dApply 1 m.out_channels (m.kernel_size[0]!) (m.dilation[0]!)
        (m.stride[0]!) x
    else if m.conv1d then
      conv1dApply m.in_channels m.out_channels (m.kernel_size[0]!)
        (m.dilation[0]!) (m.stride[0]!) x
    else if m.conv2d then
      conv2dApply m.in_channels m.out_channels m.kernel_size m.dilation
        m.stride x
    else
      .error (.typeError "Conv object has no attribute conv")
  let wx := if m.unsqueeze then squeezeAt1 wx else wx
  let wx ←
    if m.reshape_conv1d then
      match wx with
      | [_, b, c, d] => .ok [orShape0, b, c, d]
      | _ => .error (.indexError "tuple index out of range")
    else .ok wx
  transposeShape wx

/-- `conv(x, init_params=True)`: lazy initialization from the first input's
shape followed by the forward pass on that input. -/
def forwardInit (m : Conv) (x : List ℕ) : Except PyErr (List ℕ) := do
  let m1 ← init_params m x
  forward m1 x

/-- The freshly constructed module of the docstring example
`Conv(out_channels=25, kernel_size=(11,))` with default arguments
(the state right after `__init__`). -/
def conv1dExample : Conv :=
  { out_channels := 25, kernel_size := [11], stride := [1, 1],
    dilation := [1, 1], padding := true, groups := 1, bias := true,
    padding_mode := "reflect", sinc_conv := false, sample_rate := 16000,
    min_low_hz := 50, min_band_hz := 50, reshape_conv1d := false,
    unsqueeze := false, conv1d := true, conv2d := false, in_channels := 0 }

/-- The freshly constructed module of the docstring example
`Conv(out_channels=25, kernel_size=(11,5))` with default arguments. -/
def conv2dExample : Conv :=
  { out_channels := 25, kernel_size := [11, 5], stride := [1, 1],
    dilation := [1, 1], padding := true, groups := 1, bias := true,
    padding_mode := "reflect", sinc_conv := false, sample_rate := 16000,
    min_low_hz := 50, min_band_hz := 50, reshape_conv1d := false,
    unsqueeze := false, conv1d := false, conv2d := true, in_channels := 0 }

/-- `Conv._to_mel` (lines 453-457), over exact reals:
`2595 * log10(1 + hz / 700)`. -/
noncomputable def to_mel (hz : ℝ) : ℝ := 2595 * Real.logb 10 (1 + hz / 700)

/-- `Conv._to_hz` (lines 459-463), over exact reals:
`700 * (10 ** (mel / 2595) - 1)`. -/
noncomputable def to_hz (mel : ℝ) : ℝ := 700 * ((10 : ℝ) ^ (mel / 2595) - 1)

/-- `torch.linspace(a, b, steps)` element `i` (0-indexed, `i < steps`):
`a + i * (b - a) / (steps - 1)`; with `steps = 1` the single element is
`a`. -/
noncomputable def linspaceVal (a b : ℝ) (steps i : ℕ) : ℝ :=
  a + (b - a) * i / ((steps - 1 : ℕ) : ℝ)

/-- The `i`-th mel boundary built by `_init_sinc_conv` (lines 267-274):
`torch.linspace(_to_mel(min_low_hz), _to_mel(sample_rate / 2 -
(min_low_hz + min_band_hz)), out_channels + 1)` at index `i`. -/
noncomputable def sincBoundaryMel (min_low_hz min_band_hz sample_rate : ℝ)
    (out_channels i : ℕ) : ℝ :=
  linspaceVal (to_mel min_low_hz)
    (to_mel (sample_rate / 2 - (min_low_hz + min_band_hz)))
    (out_channels + 1) i

/-- The `i`-th boundary frequency `hz[i] = _to_hz(mel)[i]` of
`_init_sinc_conv` (line 276). -/
noncomputable def sincBoundaryHz (min_low_hz min_band_hz sample_rate : ℝ)
    (out_channels i : ℕ) : ℝ :=
  to_hz (sincBoundaryMel min_low_hz min_band_hz sample_rate out_channels i)

/-- Initial `low_hz_[i] = hz[i]` (`hz[:-1]`, line 279), for
`i < out_channels`. -/
noncomputable def initLowHz (min_low_hz min_band_hz sample_rate : ℝ)
    (out_channels i : ℕ) : ℝ :=
  sincBoundaryHz min_low_hz min_band_hz sample_rate out_channels i

/-- Initial `band_hz_[i] = hz[i+1] - hz[i]` (`hz[1:] - hz[:-1]`, line 280),
for `i < out_channels`. -/
noncomputable def initBandHz (min_low_hz min_band_hz sample_rate : ℝ)
    (out_channels i : ℕ) : ℝ :=
  sincBoundaryHz min_low_hz min_band_hz sample_rate out_channels (i + 1) -
    sincBoundaryHz min_low_hz min_band_hz sample_rate out_channels i

/-- `_get_sinc_filters` line 387, one filter: the low cutoff
`low = min_low_hz + |low_hz_|`. -/
noncomputable def lowFreq (min_low_hz low_hz : ℝ) : ℝ := min_low_hz + |low_hz|

/-- `_get_sinc_filters` lines 390-394, one filter: the high cutoff
`high = clamp(low + min_band_hz + |band_hz_|, min_low_hz,
sample_rate / 2)`; `torch.clamp(x, lo, hi) = min (max x lo) hi`. -/
noncomputable def highFreq (min_low_hz min_band_hz sample_rate low_hz
    band_hz : ℝ) : ℝ :=
  min (max (lowFreq min_low_hz low_hz + min_band_hz + |band_hz|) min_low_hz)
    (sample_rate / 2)

/-- `band = (high - low)` (line 395), one filter. -/
noncomputable def bandWidth (min_low_hz min_band_hz sample_rate low_hz
    band_hz : ℝ) : ℝ :=
  highFreq min_low_hz min_band_hz sample_rate low_hz band_hz -
    lowFreq min_low_hz low_hz

/-- Number of elements of `torch.arange(-n, 0)` with `n = (k - 1) / 2.0`
(line 297), and equally of the left filter half; for odd `k` this is
`(k - 1) / 2`, which also equals `int(k / 2)`, the Hamming-window step
count of line 290. -/
def nHalf (k : ℕ) : ℕ := (k - 1) / 2

/-- `n_[j] = 2 * pi * (-n + j) / sample_rate` with `n = (k - 1) / 2.0`
(lines 296-300): the `j`-th element of `torch.arange(-n, 0)` scaled. -/
noncomputable def nTime (sample_rate : ℝ) (k j : ℕ) : ℝ :=
  2 * Real.pi * ((j : ℝ) - ((k : ℝ) - 1) / 2) / sample_rate

/-- The Hamming window of lines 287-294:
`0.54 - 0.46 * cos(2 * pi * n_lin[j] / k)` with
`n_lin = torch.linspace(0, k / 2 - 1, steps=int(k / 2))`. -/
noncomputable def windowVal (k j : ℕ) : ℝ :=
  0.54 - 0.46 *
    Real.cos (2 * Real.pi * linspaceVal 0 ((k : ℝ) / 2 - 1) (k / 2) j /
      (k : ℝ))

/-- `band_pass_left[j]` (lines 398-405), one filter:
`((sin(high * n_[j]) - sin(low * n_[j])) / (n_[j] / 2)) * window_[j]`,
for `j < nHalf k`. -/
noncomputable def bandPassLeft (min_low_hz min_band_hz sample_rate low_hz
    band_hz : ℝ) (k j : ℕ) : ℝ :=
  ((Real.sin (highFreq min_low_hz min_band_hz sample_rate low_hz band_hz *
        nTime sample_rate k j) -
      Real.sin (lowFreq min_low_hz low_hz * nTime sample_rate k j)) /
    (nTime sample_rate k j / 2)) * windowVal k j

/-- `band_pass[i]` (lines 407-416), one filter: the concatenation of
`band_pass_left`, the central element `2 * band`, and
`torch.flip(band_pass_left)` (whose `j`-th element is
`band_pass_left[nHalf k - 1 - j]`). -/
noncomputable def bandPass (min_low_hz min_band_hz sample_rate low_hz
    band_hz : ℝ) (k i : ℕ) : ℝ :=
  if i < nHalf k then
    bandPassLeft min_low_hz min_band_hz sample_rate low_hz band_hz k i
  else if i = nHalf k then
    2 * bandWidth min_low_hz min_band_hz sample_rate low_hz band_hz
  else
    bandPassLeft min_low_hz min_band_hz sample_rate low_hz band_hz k
      (nHalf k - 1 - (i - nHalf k - 1))

/-- `filters[c, 0, i]` (lines 419-428), one filter: `band_pass[i]`
normalized by `2 * band`. -/
noncomputable def sincFilter (min_low_hz min_band_hz sample_rate low_hz
    band_hz : ℝ) (k i : ℕ) : ℝ :=
  bandPass min_low_hz min_band_hz sample_rate low_hz band_hz k i /
    (2 * bandWidth min_low_hz min_band_hz sample_rate low_hz band_hz)

lemma natCast_fdiv_two (n : ℕ) : ((n : ℤ)).fdiv 2 = ((n / 2 : ℕ) : ℤ) :=
  (Int.ofNat_fdiv n 2).symm

/-- With `stride = 1`, `_get_padding_elem` returns
`dilation * (kernel_size - 1) // 2` on both sides, independently of
`L_in`. -/
lemma getPaddingElem_stride_one (L k d : ℕ) (hk : 1 ≤ k) :
    getPaddingElem (L : ℤ) ((1 : ℕ) : ℤ) (k : ℤ) (d : ℤ) =
      [((d * (k - 1) / 2 : ℕ) : ℤ), ((d * (k - 1) / 2 : ℕ) : ℤ)] := by
  have h1 : ((L : ℤ) - ((L : ℤ) - (d : ℤ) * ((k : ℤ) - 1))) =
      ((d * (k - 1) : ℕ) : ℤ) := by
    push_cast [hk]
    ring
  have hcond : ¬(((1 : ℕ) : ℤ) > 1) := by norm_num
  simp only [getPaddingElem, if_neg hcond, h1, natCast_fdiv_two]

/-- C1 counterexample: with `padding=True` but `stride = 2` (input length
10, kernel 3, dilation 1) the convolved axis has length 5, not the input
length 10, so length preservation does not hold for every stride. -/
theorem padding_stride_two_not_length_preserving :
    paddedConvLen 10 3 1 2 = 5 ∧ ¬paddedConvLen 10 3 1 2 = 10 := by
  constructor <;> decide

/-- C1 (amended): with `padding=True` and stride 1, the analytic padding of
`_get_padding_elem` makes the convolved axis keep the input length, for
every input length `L ≥ 1`, every odd kernel size, and every dilation;
this covers the time axis of the 1D and 2D modes and the frequency axis of
the 2D mode, each of which applies exactly this padding arithmetic. -/
theorem same_padding_preserves_length (L k d : ℕ) (hL : 1 ≤ L)
    (hk : k % 2 = 1) : paddedConvLen L k d 1 = L := by
  have hk1 : 1 ≤ k := by omega
  have heven : d * (k - 1) % 2 = 0 := by
    have h2 : (k - 1) % 2 = 0 := by omega
    rw [Nat.mul_mod, h2]
    simp
  have h3 : 2 * (d * (k - 1) / 2) = d * (k - 1) :=
    Nat.mul_div_cancel' (Nat.dvd_of_mod_eq_zero heven)
  simp only [paddedConvLen, padAmount, getPaddingElem_stride_one L k d hk1,
    List.headI, Int.toNat_natCast, convOutLen]
  omega

/-- Witness for C1 at the docstring configuration `L = 16000`, `k = 11`,
`d = 1`. -/
theorem same_padding_preserves_length_witness :
    1 ≤ 16000 ∧ 11 % 2 = 1 ∧ paddedConvLen 16000 11 1 1 = 16000 :=
  ⟨by decide, by decide,
    same_padding_preserves_length 16000 11 1 (by decide) (by decide)⟩

/-- C2: `_kernel_check` dispatch — an int kernel (odd) normalizes to a
1-tuple and selects 1D mode; a length-1 all-odd kernel selects 1D mode; a
length-2 all-odd kernel with `sinc_conv=False` selects 2D mode; and with
`sinc_conv=True` a length-2 kernel never passes `_kernel_check` (for any
kernel values), so such a construction never succeeds. -/
theorem conv_mode_dispatch (sinc : Bool) (ks : List ℕ) (k : ℕ)
    (hk : k % 2 = 1) (hodd : ∀ s ∈ ks, s % 2 = 1) :
    kernelCheck sinc (normalizeKernel (.int k)) = .ok (true, false) ∧
    (ks.length = 1 → kernelCheck sinc ks = .ok (true, false)) ∧
    (ks.length = 2 → kernelCheck false ks = .ok (false, true)) ∧
    (∀ (ks2 : List ℕ) (r : Bool × Bool), ks2.length = 2 →
      kernelCheck true ks2 ≠ .ok r) := by
  have hany : ∀ l : List ℕ, (∀ s ∈ l, s % 2 = 1) →
      (l.any fun s => s % 2 == 0) = false := by
    intro l hl
    simp only [List.any_eq_false, beq_iff_eq]
    intro x hx
    have := hl x hx
    omega
  refine ⟨?_, ?_, ?_, ?_⟩
  · have h1 : ((([k] : List ℕ)).any fun s => s % 2 == 0) = false := by
      apply hany
      intro s hs
      simp only [List.mem_singleton] at hs
      omega
    simp [kernelCheck, normalizeKernel, h1]
  · intro hlen
    simp [kernelCheck, hany ks hodd, hlen]
  · intro hlen
    simp [kernelCheck, hany ks hodd, hlen]
  · intro ks2 r hlen
    by_cases he : (ks2.any fun s => s % 2 == 0) = true
    · simp [kernelCheck, he]
    · simp only [Bool.not_eq_true] at he
      simp [kernelCheck, he, hlen]

/-- Witness for C2 at `sinc = true`, `ks = [3, 5]`, `k = 7`. -/
theorem conv_mode_dispatch_witness :
    7 % 2 = 1 ∧ (∀ s ∈ ([3, 5] : List ℕ), s % 2 = 1) ∧
    (kernelCheck true (normalizeKernel (.int 7)) = .ok (true, false) ∧
      (([3, 5] : List ℕ).length = 1 →
        kernelCheck true [3, 5] = .ok (true, false)) ∧
      (([3, 5] : List ℕ).length = 2 →
        kernelCheck false [3, 5] = .ok (false, true)) ∧
      (∀ (ks2 : List ℕ) (r : Bool × Bool), ks2.length = 2 →
        kernelCheck true ks2 ≠ .ok r)) :=
  ⟨by decide, by decide,
    conv_mode_dispatch true [3, 5] 7 (by decide) (by decide)⟩

/-- C9: `_kernel_check` raises `ValueError` whenever some kernel element is
even (the parity loop precedes every other check), and with
`sinc_conv=False` and an all-odd kernel of length 1 or 2 the check — and
hence the constructor — completes without error, returning the
corresponding mode flags. -/
theorem kernel_check_even_error_odd_ok (sinc : Bool) (ks : List ℕ) :
    ((∃ s ∈ ks, s % 2 = 0) → kernelCheck sinc ks =
      .error (.valueError "The field kernel size must be an odd number.")) ∧
    ((∀ s ∈ ks, s % 2 = 1) → (ks.length = 1 ∨ ks.length = 2) →
      kernelCheck false ks = .ok (ks.length == 1, ks.length == 2)) := by
  constructor
  · rintro ⟨s, hs, hev⟩
    have hany : (ks.any fun s => s % 2 == 0) = true := by
      simp only [List.any_eq_true, beq_iff_eq]
      exact ⟨s, hs, hev⟩
    simp [kernelCheck, hany]
  · intro hodd _
    have hany : (ks.any fun s => s % 2 == 0) = false := by
      simp only [List.any_eq_false, beq_iff_eq]
      intro x hx
      have := hodd x hx
      omega
    simp [kernelCheck, hany]

/-- Witness for C9: an even kernel `[4, 3]` raises `ValueError`; the odd
kernels `[11]` and `[11, 5]` pass with the 1D resp. 2D flag. -/
theorem kernel_check_even_error_odd_ok_witness :
    kernelCheck true [4, 3] =
      .error (.valueError "The field kernel size must be an odd number.") ∧
    kernelCheck false [11] = .ok (true, false) ∧
    kernelCheck false [11, 5] = .ok (false, true) := by
  refine ⟨(kernel_check_even_error_odd_ok true [4, 3]).1
      ⟨4, by decide, by decide⟩, ?_, ?_⟩
  · exact (kernel_check_even_error_odd_ok false [11]).2 (by decide)
      (Or.inl (by decide))
  · exact (kernel_check_even_error_odd_ok false [11, 5]).2 (by decide)
      (Or.inr (by decide))

/-- C3: for every value of the learnable scalars `low_hz_` and `band_hz_`,
the synthesized filter's low cutoff `min_low_hz + |low_hz_|` is at least
`min_low_hz`, and its high cutoff, clamped into
`[min_low_hz, sample_rate / 2]`, is at most `sample_rate / 2`. -/
theorem sinc_cutoff_bounds (min_low_hz min_band_hz sample_rate low_hz
    band_hz : ℝ) :
    min_low_hz ≤ lowFreq min_low_hz low_hz ∧
    highFreq min_low_hz min_band_hz sample_rate low_hz band_hz ≤
      sample_rate / 2 :=
  ⟨le_add_of_nonneg_right (abs_nonneg low_hz), min_le_right _ _⟩

lemma to_hz_to_mel_inv (hz : ℝ) (h : 0 ≤ hz) : to_hz (to_mel hz) = hz := by
  have h1 : (0 : ℝ) < 1 + hz / 700 := by positivity
  simp only [to_hz, to_mel]
  rw [mul_div_cancel_left₀ _ (by norm_num : (2595 : ℝ) ≠ 0),
    Real.rpow_logb (by norm_num) (by norm_num) h1]
  ring

lemma to_mel_to_hz_inv (mel : ℝ) : to_mel (to_hz mel) = mel := by
  simp only [to_mel, to_hz]
  have h2 : 1 + 700 * ((10 : ℝ) ^ (mel / 2595) - 1) / 700 =
      (10 : ℝ) ^ (mel / 2595) := by
    ring
  rw [h2, Real.logb_rpow (by norm_num) (by norm_num)]
  ring

/-- C7: under exact real arithmetic `_to_hz` and `_to_mel` are mutually
inverse: `_to_hz(_to_mel(hz)) = hz` for every `hz ≥ 0` and
`_to_mel(_to_hz(m)) = m` for every `m ≥ 0`. -/
theorem to_mel_to_hz_mutual_inverse (hz mel : ℝ) (hhz : 0 ≤ hz)
    (hmel : 0 ≤ mel) : to_hz (to_mel hz) = hz ∧ to_mel (to_hz mel) = mel :=
  ⟨to_hz_to_mel_inv hz hhz, to_mel_to_hz_inv mel⟩

/-- Witness for C7 at `hz = 440`, `mel = 1000`. -/
theorem to_mel_to_hz_mutual_inverse_witness :
    (0 : ℝ) ≤ 440 ∧ (0 : ℝ) ≤ 1000 ∧
    (to_hz (to_mel 440) = 440 ∧ to_mel (to_hz 1000) = 1000) :=
  ⟨by norm_num, by norm_num,
    to_mel_to_hz_mutual_inverse 440 1000 (by norm_num) (by norm_num)⟩

/-- C4: the `out_channels + 1` boundary frequencies of `_init_sinc_conv`
are equally spaced on the mel scale between `_to_mel(min_low_hz)` and
`_to_mel(sample_rate / 2 - (min_low_hz + min_band_hz))`: the `i`-th
boundary's mel value is the start plus `i / out_channels` of the mel range,
so consecutive boundaries differ by the constant `range / out_channels`;
the initial `low_hz_[i]` is the `i`-th boundary and the initial
`band_hz_[i]` is the difference of consecutive boundaries. -/
theorem sinc_init_mel_equally_spaced (mlow mband sr : ℝ) (N i : ℕ) :
    to_mel (sincBoundaryHz mlow mband sr N i) =
      to_mel mlow +
        (to_mel (sr / 2 - (mlow + mband)) - to_mel mlow) * i / N ∧
    to_mel (sincBoundaryHz mlow mband sr N (i + 1)) -
        to_mel (sincBoundaryHz mlow mband sr N i) =
      (to_mel (sr / 2 - (mlow + mband)) - to_mel mlow) / N ∧
    initLowHz mlow mband sr N i = sincBoundaryHz mlow mband sr N i ∧
    initBandHz mlow mband sr N i =
      sincBoundaryHz mlow mband sr N (i + 1) -
        sincBoundaryHz mlow mband sr N i := by
  refine ⟨?_, ?_, ?_, ?_⟩ <;>
    simp only [sincBoundaryHz, sincBoundaryMel, linspaceVal, initLowHz,
      initBandHz, to_mel_to_hz_inv, Nat.add_sub_cancel]
  push_cast
  ring

/-- C8: each synthesized sinc filter is symmetric about its central tap:
`filters[c, 0, i] = filters[c, 0, k - 1 - i]` for every odd kernel size
`k`, every index `i < k`, and every value of the learnable and
configuration parameters. -/
theorem sinc_filter_symmetric (mlow mband sr low_hz band_hz : ℝ) (k i : ℕ)
    (hk : k % 2 = 1) (hi : i < k) :
    sincFilter mlow mband sr low_hz band_hz k i =
      sincFilter mlow mband sr low_hz band_hz k (k - 1 - i) := by
  have hh : k = 2 * nHalf k + 1 := by
    simp only [nHalf]
    omega
  set h := nHalf k with hdef
  rcases lt_trichotomy i h with hlt | heq | hgt
  · have hidx : k - 1 - i = 2 * h - i := by omega
    have h2 : ¬(2 * h - i < h) := by omega
    have h3 : ¬(2 * h - i = h) := by omega
    have hback : h - 1 - (2 * h - i - h - 1) = i := by omega
    simp only [sincFilter, bandPass, if_pos hlt, hidx, if_neg h2, if_neg h3,
      hback]
  · have hidx : k - 1 - i = i := by omega
    rw [hidx]
  · have hidx : k - 1 - i = 2 * h - i := by omega
    have h2 : ¬(i < h) := by omega
    have h3 : ¬(i = h) := by omega
    have h4 : 2 * h - i < h := by omega
    have hback : h - 1 - (i - h - 1) = 2 * h - i := by omega
    simp only [sincFilter, bandPass, if_neg h2, if_neg h3, hidx, if_pos h4,
      hback]

/-- Witness for C8 at `k = 5`, `i = 1` (so `k - 1 - i = 3`) with the
default configuration and zero learnable parameters. -/
theorem sinc_filter_symmetric_witness :
    5 % 2 = 1 ∧ 1 < 5 ∧
    sincFilter 50 50 16000 0 0 5 1 = sincFilter 50 50 16000 0 0 5 3 :=
  ⟨by decide, by decide,
    sinc_filter_symmetric 50 50 16000 0 0 5 1 (by decide) (by decide)⟩

@[simp] lemma except_bind_ok {α β : Type} (a : α) (f : α → Except PyErr β) :
    (Except.ok a : Except PyErr α) >>= f = f a := rfl

@[simp] lemma except_bind_err {α β : Type} (e : PyErr)
    (f : α → Except PyErr β) :
    (Except.error e : Except PyErr α) >>= f = .error e := rfl

@[simp] lemma getLastB1 (a : ℕ) : ([a] : List ℕ).getLast! = a := rfl

@[simp] lemma getLastB2 (a b : ℕ) : ([a, b] : List ℕ).getLast! = b := rfl

@[simp] lemma getLastB3 (a b c : ℕ) : ([a, b, c] : List ℕ).getLast! = c := rfl

@[simp] lemma getLastB4 (a b c d : ℕ) :
    ([a, b, c, d] : List ℕ).getLast! = d := rfl

@[simp] lemma dropLastB2 (a b : ℕ) : ([a, b] : List ℕ).dropLast = [a] := rfl

@[simp] lemma dropLastB3 (a b c : ℕ) :
    ([a, b, c] : List ℕ).dropLast = [a, b] := rfl

@[simp] lemma dropLastB4 (a b c d : ℕ) :
    ([a, b, c, d] : List ℕ).dropLast = [a, b, c] := rfl

/-- 1D mode, rank-2 first input `[b, t]`: output `[b, L', out_channels]`
(rank 3). -/
lemma forward1d_rank2 (m : Conv) (b t k s dd : ℕ)
    (h1 : m.conv1d = true) (h2 : m.conv2d = false) (h3 : m.sinc_conv = false)
    (h4 : m.unsqueeze = false) (h5 : m.reshape_conv1d = false)
    (h6 : m.padding = true) (hg : m.groups = 1)
    (hk : m.kernel_size = [k]) (hst : m.stride = [s, s])
    (hdl : m.dilation = [dd, dd])
    (hs : s ≠ 0) (hd : dd ≠ 0) (hoc : m.out_channels ≠ 1)
    (hpad : padAmount t k dd s < t)
    (hlen : dd * (k - 1) + 1 ≤ t + 2 * padAmount t k dd s) :
    forwardInit m [b, t] = .ok [b, paddedConvLen t k dd s, m.out_channels] := by
  obtain ⟨oc, ks, st, dl, pd, g, bi, pm, sc, sr, mlh, mbh, rc, us, c1, c2, ic⟩ := m
  simp only at h1 h2 h3 h4 h5 h6 hg hk hst hdl hoc
  subst h1 h2 h3 h4 h5 h6 hg hk hst hdl
  simp only [padAmount] at hpad hlen
  have hpad2 : ¬(t ≤ (getPaddingElem (t : ℤ) (s : ℤ) (k : ℤ) (dd : ℤ)).headI.toNat) :=
    Nat.not_le.mpr hpad
  have hlen2 : ¬(t + 2 * (getPaddingElem (t : ℤ) (s : ℤ) (k : ℤ) (dd : ℤ)).headI.toNat <
      dd * (k - 1) + 1) := Nat.not_lt.mpr hlen
  have hs0 : (s == 0) = false := by simpa using hs
  have hd0 : (dd == 0) = false := by simpa using hd
  have hoc0 : (oc == 1) = false := by simpa using hoc
  simp only [forwardInit, init_params, init_sinc_conv, init_conv1d, forward,
    manage_padding, conv1dApply, transposeShape, unsqueezeAt1, squeezeAt1]
  simp [hpad2, hlen2, hs0, hd0, hs, hd, hoc0, hoc, paddedConvLen, padAmount,
    convOutLen, Nat.mod_one]

/-- 1D mode, rank-3 first input `[b, t, c]`: output `[b, L', out_channels]`
(rank 3, batch preserved). -/
lemma forward1d_rank3 (m : Conv) (b t c k s dd : ℕ)
    (h1 : m.conv1d = true) (h2 : m.conv2d = false) (h3 : m.sinc_conv = false)
    (h4 : m.unsqueeze = false) (h5 : m.reshape_conv1d = false)
    (h6 : m.padding = true) (hg : m.groups = 1)
    (hk : m.kernel_size = [k]) (hst : m.stride = [s, s])
    (hdl : m.dilation = [dd, dd])
    (hs : s ≠ 0) (hd : dd ≠ 0)
    (hpad : padAmount t k dd s < t)
    (hlen : dd * (k - 1) + 1 ≤ t + 2 * padAmount t k dd s) :
    forwardInit m [b, t, c] = .ok [b, paddedConvLen t k dd s, m.out_channels] := by
  obtain ⟨oc, ks, st, dl, pd, g, bi, pm, sc, sr, mlh, mbh, rc, us, c1, c2, ic⟩ := m
  simp only at h1 h2 h3 h4 h5 h6 hg hk hst hdl
  subst h1 h2 h3 h4 h5 h6 hg hk hst hdl
  simp only [padAmount] at hpad hlen
  have hpad2 : ¬(t ≤ (getPaddingElem (t : ℤ) (s : ℤ) (k : ℤ) (dd : ℤ)).headI.toNat) :=
    Nat.not_le.mpr hpad
  have hlen2 : ¬(t + 2 * (getPaddingElem (t : ℤ) (s : ℤ) (k : ℤ) (dd : ℤ)).headI.toNat <
      dd * (k - 1) + 1) := Nat.not_lt.mpr hlen
  have hs0 : (s == 0) = false := by simpa using hs
  have hd0 : (dd == 0) = false := by simpa using hd
  simp only [forwardInit, init_params, init_sinc_conv, init_conv1d, forward,
    manage_padding, conv1dApply, transposeShape, unsqueezeAt1, squeezeAt1]
  simp [hpad2, hlen2, hs0, hd0, hs, hd, paddedConvLen, padAmount,
    convOutLen, Nat.mod_one]

/-- 1D mode, rank-4 first input `[b, t, c1, c2]`: `forward` reaches the
restore `wx.reshape(or_shape[0], wx.shape[1], wx.shape[2], wx.shape[3])`
with a 3-D `wx` and raises `IndexError`. -/
lemma forward1d_rank4 (m : Conv) (b t c1 c2 k s dd : ℕ)
    (h1 : m.conv1d = true) (h2 : m.conv2d = false) (h3 : m.sinc_conv = false)
    (h4 : m.unsqueeze = false) (h5 : m.reshape_conv1d = false)
    (h6 : m.padding = true) (hg : m.groups = 1)
    (hk : m.kernel_size = [k]) (hst : m.stride = [s, s])
    (hdl : m.dilation = [dd, dd])
    (hs : s ≠ 0) (hd : dd ≠ 0)
    (hpad : padAmount t k dd s < t)
    (hlen : dd * (k - 1) + 1 ≤ t + 2 * padAmount t k dd s) :
    forwardInit m [b, t, c1, c2] =
      .error (.indexError "tuple index out of range") := by
  obtain ⟨oc, ks, st, dl, pd, g, bi, pm, sc, sr, mlh, mbh, rc, us, c1f, c2f, ic⟩ := m
  simp only at h1 h2 h3 h4 h5 h6 hg hk hst hdl
  subst h1 h2 h3 h4 h5 h6 hg hk hst hdl
  simp only [padAmount] at hpad hlen
  have hpad2 : ¬(t ≤ (getPaddingElem (t : ℤ) (s : ℤ) (k : ℤ) (dd : ℤ)).headI.toNat) :=
    Nat.not_le.mpr hpad
  have hlen2 : ¬(t + 2 * (getPaddingElem (t : ℤ) (s : ℤ) (k : ℤ) (dd : ℤ)).headI.toNat <
      dd * (k - 1) + 1) := Nat.not_lt.mpr hlen
  have hs0 : (s == 0) = false := by simpa using hs
  have hd0 : (dd == 0) = false := by simpa using hd
  have hcc : c2 * c1 = c1 * c2 := Nat.mul_comm c2 c1
  simp only [forwardInit, init_params, init_sinc_conv, init_conv1d, forward,
    manage_padding, conv1dApply, transposeShape, unsqueezeAt1, squeezeAt1]
  simp [hpad2, hlen2, hs0, hd0, hs, hd, hcc, paddedConvLen, padAmount,
    convOutLen, Nat.mod_one]

set_option maxHeartbeats 2000000 in
/-- 2D mode, rank-4 first input `[b, t, f, c]`: output
`[b, T', F', out_channels]` (rank 4, batch preserved).  The frequency
padding amount is computed by the source from the time length `t`. -/
lemma forward2d_rank4 (m : Conv) (b t f c kt kf st sf dt df : ℕ)
    (h1 : m.conv1d = false) (h2 : m.conv2d = true) (h3 : m.sinc_conv = false)
    (h4 : m.unsqueeze = false) (h5 : m.reshape_conv1d = false)
    (h6 : m.padding = true) (hg : m.groups = 1)
    (hk : m.kernel_size = [kt, kf]) (hst : m.stride = [st, sf])
    (hdl : m.dilation = [dt, df])
    (hs1 : st ≠ 0) (hs2 : sf ≠ 0) (hd1 : dt ≠ 0) (hd2 : df ≠ 0)
    (hpadT : padAmount t kt dt st < t) (hpadF : padAmount t kf df sf < f)
    (hlenT : dt * (kt - 1) + 1 ≤ t + 2 * padAmount t kt dt st)
    (hlenF : df * (kf - 1) + 1 ≤ f + 2 * padAmount t kf df sf) :
    forwardInit m [b, t, f, c] =
      .ok [b, paddedConvLen t kt dt st,
        convOutLen (f + 2 * padAmount t kf df sf) kf df sf,
        m.out_channels] := by
  obtain ⟨oc, ks, stl, dl, pd, g, bi, pm, sc, sr, mlh, mbh, rc, us, c1f, c2f, ic⟩ := m
  simp only at h1 h2 h3 h4 h5 h6 hg hk hst hdl
  subst h1 h2 h3 h4 h5 h6 hg hk hst hdl
  simp only [padAmount] at hpadT hpadF hlenT hlenF
  have hpT : ¬(t ≤ (getPaddingElem (t : ℤ) (st : ℤ) (kt : ℤ) (dt : ℤ)).headI.toNat) :=
    Nat.not_le.mpr hpadT
  have hpF : ¬(f ≤ (getPaddingElem (t : ℤ) (sf : ℤ) (kf : ℤ) (df : ℤ)).headI.toNat) :=
    Nat.not_le.mpr hpadF
  have hlT : ¬(t + 2 * (getPaddingElem (t : ℤ) (st : ℤ) (kt : ℤ) (dt : ℤ)).headI.toNat <
      dt * (kt - 1) + 1) := Nat.not_lt.mpr hlenT
  have hlF : ¬(f + 2 * (getPaddingElem (t : ℤ) (sf : ℤ) (kf : ℤ) (df : ℤ)).headI.toNat <
      df * (kf - 1) + 1) := Nat.not_lt.mpr hlenF
  have hs10 : (st == 0) = false := by simpa using hs1
  have hs20 : (sf == 0) = false := by simpa using hs2
  have hd10 : (dt == 0) = false := by simpa using hd1
  have hd20 : (df == 0) = false := by simpa using hd2
  simp only [forwardInit, init_params, init_conv2d, forward,
    manage_padding, conv2dApply, transposeShape, unsqueezeAt1, squeezeAt1]
  simp [hpT, hpF, hlT, hlF, hs10, hs20, hd10, hd20, hs1, hs2, hd1, hd2,
    paddedConvLen, padAmount, convOutLen, Nat.mod_one]

set_option maxHeartbeats 2000000 in
/-- 2D mode, rank-3 first input `[b, t, f]`: output
`[b, T', F', out_channels]` — rank 4, one more than the input. -/
lemma forward2d_rank3 (m : Conv) (b t f kt kf st sf dt df : ℕ)
    (h1 : m.conv1d = false) (h2 : m.conv2d = true) (h3 : m.sinc_conv = false)
    (h4 : m.unsqueeze = false) (h5 : m.reshape_conv1d = false)
    (h6 : m.padding = true) (hg : m.groups = 1)
    (hk : m.kernel_size = [kt, kf]) (hst : m.stride = [st, sf])
    (hdl : m.dilation = [dt, df])
    (hs1 : st ≠ 0) (hs2 : sf ≠ 0) (hd1 : dt ≠ 0) (hd2 : df ≠ 0)
    (hoc : m.out_channels ≠ 1)
    (hpadT : padAmount t kt dt st < t) (hpadF : padAmount t kf df sf < f)
    (hlenT : dt * (kt - 1) + 1 ≤ t + 2 * padAmount t kt dt st)
    (hlenF : df * (kf - 1) + 1 ≤ f + 2 * padAmount t kf df sf) :
    forwardInit m [b, t, f] =
      .ok [b, paddedConvLen t kt dt st,
        convOutLen (f + 2 * padAmount t kf df sf) kf df sf,
        m.out_channels] := by
  obtain ⟨oc, ks, stl, dl, pd, g, bi, pm, sc, sr, mlh, mbh, rc, us, c1f, c2f, ic⟩ := m
  simp only at h1 h2 h3 h4 h5 h6 hg hk hst hdl hoc
  subst h1 h2 h3 h4 h5 h6 hg hk hst hdl
  simp only [padAmount] at hpadT hpadF hlenT hlenF
  have hpT : ¬(t ≤ (getPaddingElem (t : ℤ) (st : ℤ) (kt : ℤ) (dt : ℤ)).headI.toNat) :=
    Nat.not_le.mpr hpadT
  have hpF : ¬(f ≤ (getPaddingElem (t : ℤ) (sf : ℤ) (kf : ℤ) (df : ℤ)).headI.toNat) :=
    Nat.not_le.mpr hpadF
  have hlT : ¬(t + 2 * (getPaddingElem (t : ℤ) (st : ℤ) (kt : ℤ) (dt : ℤ)).headI.toNat <
      dt * (kt - 1) + 1) := Nat.not_lt.mpr hlenT
  have hlF : ¬(f + 2 * (getPaddingElem (t : ℤ) (sf : ℤ) (kf : ℤ) (df : ℤ)).headI.toNat <
      df * (kf - 1) + 1) := Nat.not_lt.mpr hlenF
  have hs10 : (st == 0) = false := by simpa using hs1
  have hs20 : (sf == 0) = false := by simpa using hs2
  have hd10 : (dt == 0) = false := by simpa using hd1
  have hd20 : (df == 0) = false := by simpa using hd2
  have hoc0 : (oc == 1) = false := by simpa using hoc
  simp only [forwardInit, init_params, init_conv2d, forward,
    manage_padding, conv2dApply, transposeShape, unsqueezeAt1, squeezeAt1]
  simp [hpT, hpF, hlT, hlF, hs10, hs20, hd10, hd20, hs1, hs2, hd1, hd2,
    hoc0, hoc, paddedConvLen, padAmount, convOutLen, Nat.mod_one]

/-- C5 counterexample: the module's own docstring example — a fresh 1D
`Conv(out_channels=25, kernel_size=(11,))` applied with `init_params=True`
to the rank-2 input `[10, 4000]` — returns a rank-3 output, so the output
does not have the same rank as the input in every case. -/
theorem forward_rank2_gives_rank3 :
    (mkConvDefault 25 (.tuple [11]) false).bind
      (fun m => forwardInit m [10, 4000]) = .ok [10, 4000, 25] ∧
    ([10, 4000, 25] : List ℕ).length ≠ ([10, 4000] : List ℕ).length := by
  constructor
  · rfl
  · decide

/-- C5 (amended): with a fresh module, valid strides/dilations, enough
input length and `out_channels ≠ 1`: a rank-3 input in 1D mode and a
rank-4 input in 2D mode give an output of the same rank with the batch
dimension unchanged and `out_channels` last; a rank-2 input in 1D mode and
a rank-3 input in 2D mode give an output of rank one higher (again batch
first, `out_channels` last); and a rank-4 input in 1D mode raises an
`IndexError` in `forward` even though initialization accepts it. -/
theorem forward_flexible_rank_shapes (m1 m2 : Conv)
    (b t c c2v f k s dd kt kf st sf dt df : ℕ)
    (a1 : m1.conv1d = true) (a2 : m1.conv2d = false)
    (a3 : m1.sinc_conv = false) (a4 : m1.unsqueeze = false)
    (a5 : m1.reshape_conv1d = false) (a6 : m1.padding = true)
    (ag : m1.groups = 1) (ak : m1.kernel_size = [k])
    (ast : m1.stride = [s, s]) (adl : m1.dilation = [dd, dd])
    (as0 : s ≠ 0) (ad0 : dd ≠ 0) (aoc : m1.out_channels ≠ 1)
    (apad : padAmount t k dd s < t)
    (alen : dd * (k - 1) + 1 ≤ t + 2 * padAmount t k dd s)
    (b1 : m2.conv1d = false) (b2 : m2.conv2d = true)
    (b3 : m2.sinc_conv = false) (b4 : m2.unsqueeze = false)
    (b5 : m2.reshape_conv1d = false) (b6 : m2.padding = true)
    (bg : m2.groups = 1) (bk : m2.kernel_size = [kt, kf])
    (bst : m2.stride = [st, sf]) (bdl : m2.dilation = [dt, df])
    (bs1 : st ≠ 0) (bs2 : sf ≠ 0) (bd1 : dt ≠ 0) (bd2 : df ≠ 0)
    (boc : m2.out_channels ≠ 1)
    (bpadT : padAmount t kt dt st < t) (bpadF : padAmount t kf df sf < f)
    (blenT : dt * (kt - 1) + 1 ≤ t + 2 * padAmount t kt dt st)
    (blenF : df * (kf - 1) + 1 ≤ f + 2 * padAmount t kf df sf) :
    forwardInit m1 [b, t] =
      .ok [b, paddedConvLen t k dd s, m1.out_channels] ∧
    forwardInit m1 [b, t, c] =
      .ok [b, paddedConvLen t k dd s, m1.out_channels] ∧
    forwardInit m1 [b, t, c, c2v] =
      .error (.indexError "tuple index out of range") ∧
    forwardInit m2 [b, t, f] =
      .ok [b, paddedConvLen t kt dt st,
        convOutLen (f + 2 * padAmount t kf df sf) kf df sf,
        m2.out_channels] ∧
    forwardInit m2 [b, t, f, c] =
      .ok [b, paddedConvLen t kt dt st,
        convOutLen (f + 2 * padAmount t kf df sf) kf df sf,
        m2.out_channels] :=
  ⟨forward1d_rank2 m1 b t k s dd a1 a2 a3 a4 a5 a6 ag ak ast adl as0 ad0
      aoc apad alen,
    forward1d_rank3 m1 b t c k s dd a1 a2 a3 a4 a5 a6 ag ak ast adl as0
      ad0 apad alen,
    forward1d_rank4 m1 b t c c2v k s dd a1 a2 a3 a4 a5 a6 ag ak ast adl
      as0 ad0 apad alen,
    forward2d_rank3 m2 b t f kt kf st sf dt df b1 b2 b3 b4 b5 b6 bg bk bst
      bdl bs1 bs2 bd1 bd2 boc bpadT bpadF blenT blenF,
    forward2d_rank4 m2 b t f c kt kf st sf dt df b1 b2 b3 b4 b5 b6 bg bk
      bst bdl bs1 bs2 bd1 bd2 bpadT bpadF blenT blenF⟩

/-- Witness for C5 at the docstring modules (`kernel_size=(11,)` resp.
`(11,5)`, 25 output channels) on inputs with `b = 10`, `t = 100`,
`f = 40`. -/
theorem forward_flexible_rank_shapes_witness :
    (conv1dExample.conv1d = true ∧ conv1dExample.groups = 1 ∧
      conv2dExample.conv2d = true ∧ conv1dExample.out_channels ≠ 1 ∧
      padAmount 100 11 1 1 < 100 ∧ padAmount 100 5 1 1 < 40) ∧
    (forwardInit conv1dExample [10, 100] = .ok [10, 100, 25] ∧
      forwardInit conv1dExample [10, 100, 3] = .ok [10, 100, 25] ∧
      forwardInit conv1dExample [10, 100, 3, 4] =
        .error (.indexError "tuple index out of range") ∧
      forwardInit conv2dExample [10, 100, 40] = .ok [10, 100, 40, 25] ∧
      forwardInit conv2dExample [10, 100, 40, 128] =
        .ok [10, 100, 40, 25]) :=
  ⟨⟨rfl, rfl, rfl, by decide, by decide, by decide⟩,
    forward_flexible_rank_shapes conv1dExample conv2dExample
      10 100 3 4 40 11 1 1 11 5 1 1 1 1
      rfl rfl rfl rfl rfl rfl rfl rfl rfl rfl
      (by decide) (by decide) (by decide) (by decide) (by decide)
      rfl rfl rfl rfl rfl rfl rfl rfl rfl rfl
      (by decide) (by decide) (by decide) (by decide) (by decide)
      (by decide) (by decide) (by decide) (by decide)⟩

/-- C6: `init_params` with a first input of each supported rank infers
`in_channels` as the claim states: in 1D mode rank 2 gives 1, rank 3 gives
`shape[2]`, rank 4 gives `shape[2] * shape[3]`; in 2D mode rank 3 gives 1
and rank 4 gives `shape[3]`. -/
theorem lazy_in_channels_inference (m1 m2 : Conv) (b t c d2 : ℕ)
    (h11 : m1.conv1d = true) (h12 : m1.conv2d = false) (hg1 : m1.groups = 1)
    (h21 : m2.conv1d = false) (h22 : m2.conv2d = true)
    (hg2 : m2.groups = 1) :
    (init_params m1 [b, t]).map Conv.in_channels = .ok 1 ∧
    (init_params m1 [b, t, c]).map Conv.in_channels = .ok c ∧
    (init_params m1 [b, t, c, d2]).map Conv.in_channels = .ok (c * d2) ∧
    (init_params m2 [b, t, c]).map Conv.in_channels = .ok 1 ∧
    (init_params m2 [b, t, c, d2]).map Conv.in_channels = .ok d2 := by
  obtain ⟨oc1, ks1, st1, dl1, pd1, g1, bi1, pm1, sc1, sr1, ml1, mb1, rc1,
    us1, c11, c21, ic1⟩ := m1
  obtain ⟨oc2, ks2, st2, dl2, pd2, g2, bi2, pm2, sc2, sr2, ml2, mb2, rc2,
    us2, c12, c22, ic2⟩ := m2
  simp only at h11 h12 hg1 h21 h22 hg2
  subst h11 h12 hg1 h21 h22 hg2
  refine ⟨?_, ?_, ?_, ?_, ?_⟩ <;>
    simp [init_params, init_sinc_conv, init_conv1d, init_conv2d,
      Except.map, Nat.mod_one]

/-- Witness for C6 at the docstring modules with `b = 10`, `t = 16000`,
`c = 40`, `d2 = 128`. -/
theorem lazy_in_channels_inference_witness :
    (conv1dExample.conv1d = true ∧ conv2dExample.conv2d = true) ∧
    ((init_params conv1dExample [10, 16000]).map Conv.in_channels =
        .ok 1 ∧
      (init_params conv1dExample [10, 16000, 40]).map Conv.in_channels =
        .ok 40 ∧
      (init_params conv1dExample [10, 16000, 40, 128]).map
          Conv.in_channels = .ok (40 * 128) ∧
      (init_params conv2dExample [10, 16000, 40]).map Conv.in_channels =
        .ok 1 ∧
      (init_params conv2dExample [10, 16000, 40, 128]).map
          Conv.in_channels = .ok 128) :=
  ⟨⟨rfl, rfl⟩,
    lazy_in_channels_inference conv1dExample conv2dExample 10 16000 40 128
      rfl rfl rfl rfl rfl rfl⟩

/-- C10 counterexample: on a rank-3 first input, `_init_conv2d` also flips
the constructor-set attribute `unsqueeze` from `False` to `True`, so the
reversal of `kernel_size`/`stride`/`dilation` is not the only
configuration change. -/
theorem init_conv2d_also_sets_unsqueeze :
    (init_conv2d conv2dExample [10, 100, 40]).map Conv.unsqueeze =
      .ok true ∧
    conv2dExample.unsqueeze = false := by
  constructor <;> rfl

/-- C10 (amended): `_init_conv2d` overwrites `kernel_size`, `stride` and
`dilation` with their reversed pairs and assigns `in_channels`; on rank-3
inputs it additionally sets `unsqueeze`; no other module attribute
changes; and a second invocation restores the original pair order, so
initialization is not idempotent on these attributes. -/
theorem init_conv2d_reverses_pairs (m : Conv) (b t f c k0 k1 s0 s1 d0 d1 : ℕ)
    (hg : m.groups = 1) (hk : m.kernel_size = [k0, k1])
    (hst : m.stride = [s0, s1]) (hdl : m.dilation = [d0, d1]) :
    init_conv2d m [b, t, f, c] =
      .ok { m with
            kernel_size := [k1, k0], stride := [s1, s0],
            dilation := [d1, d0], in_channels := c } ∧
    init_conv2d m [b, t, f] =
      .ok { m with
            kernel_size := [k1, k0], stride := [s1, s0],
            dilation := [d1, d0], in_channels := 1, unsqueeze := true } ∧
    (init_conv2d m [b, t, f, c]).bind
        (fun m2 => init_conv2d m2 [b, t, f, c]) =
      .ok { m with
            kernel_size := [k0, k1], stride := [s0, s1],
            dilation := [d0, d1], in_channels := c } := by
  obtain ⟨oc, ks, st, dl, pd, g, bi, pm, sc, sr, mlh, mbh, rc, us, c1, c2,
    ic⟩ := m
  simp only at hg hk hst hdl
  subst hg hk hst hdl
  refine ⟨?_, ?_, ?_⟩ <;> simp [init_conv2d, Except.bind, Nat.mod_one]

/-- Witness for C10 at the docstring 2D module (`kernel_size=(11,5)`)
with `b = 10`, `t = 100`, `f = 40`, `c = 128`. -/
theorem init_conv2d_reverses_pairs_witness :
    (conv2dExample.groups = 1 ∧ conv2dExample.kernel_size = [11, 5]) ∧
    (init_conv2d conv2dExample [10, 100, 40, 128] =
        .ok { conv2dExample with
              kernel_size := [5, 11], stride := [1, 1],
              dilation := [1, 1], in_channels := 128 } ∧
      init_conv2d conv2dExample [10, 100, 40] =
        .ok { conv2dExample with
              kernel_size := [5, 11], stride := [1, 1],
              dilation := [1, 1], in_channels := 1, unsqueeze := true } ∧
      (init_conv2d conv2dExample [10, 100, 40, 128]).bind
          (fun m2 => init_conv2d m2 [10, 100, 40, 128]) =
        .ok { conv2dExample with
              kernel_size := [11, 5], stride := [1, 1],
              dilation := [1, 1], in_channels := 128 }) :=
  ⟨⟨rfl, rfl⟩,
    init_conv2d_reverses_pairs conv2dExample 10 100 40 128 11 5 1 1 1 1
      rfl rfl rfl rfl⟩

end CNN
